import Mathlib

/-!
# Verification of the multi-phase election core and try-runtime parsers

Shallow embedding of the two-phase election solution lifecycle
(snapshot, compact codec, scoring, feasibility check, solution queue,
phase machine) and of the `parse` helpers of the try-runtime CLI.

The election core itself is not shipped in this source tree; only its
benchmarking harness (`frame/election-provider-multi-phase/src/benchmarking.rs`)
is. The components it exercises are therefore modelled from the
specification, faithfully to its words; each such definition carries a
doc comment starting with `Modelled from the spec:`. The `parse`
helpers are embedded directly from
`utils/frame/try-runtime/cli/src/lib.rs`.
-/

deriving instance DecidableEq for Except

/-! ## ScoringEngine -/

/-- The `ElectionScore`: ordered triple `(min_winner_backing, total_backing,
sum_of_squared_backing)`. Stake amounts are unsigned machine integers;
we model them as `Nat`. -/
structure ElectionScore where
  min_winner_backing : Nat
  total_backing : Nat
  sum_of_squared_backing : Nat
deriving DecidableEq, Repr

/-- Modelled from the spec: `ScoringEngine.compare(a, b) -> Greater|Less|Equal`
compares `(min_winner_backing, total_backing)` ascending-is-worse, then
`sum_of_squared_backing` ascending-is-better, as an explicit three-step
comparator (the third component reverses sort direction). -/
def ScoringEngine.compare (a b : ElectionScore) : Ordering :=
  if a.min_winner_backing ≠ b.min_winner_backing then
    if a.min_winner_backing > b.min_winner_backing then .gt else .lt
  else if a.total_backing ≠ b.total_backing then
    if a.total_backing > b.total_backing then .gt else .lt
  else if a.sum_of_squared_backing ≠ b.sum_of_squared_backing then
    if a.sum_of_squared_backing < b.sum_of_squared_backing then .gt else .lt
  else .eq

/-! ## Data model -/

/-- A voter row of the `RoundSnapshot`: `(identity, stake, nominated
targets)`. Identities are modelled as `Nat`; stakes (`VoteWeight`) as
`Nat`. -/
structure Voter where
  who : Nat
  stake : Nat
  votes : List Nat
deriving DecidableEq, Repr

/-- The per-round snapshot: an ordered sequence of voters and a
sequence of target identities. -/
structure RoundSnapshot where
  voters : List Voter
  targets : List Nat
deriving DecidableEq, Repr

/-- Cached sizes of the snapshot, for bound checks. -/
structure RoundSnapshotMetadata where
  voters_len : Nat
  targets_len : Nat
deriving DecidableEq, Repr

/-- An assignment: a voter identity together with an ordered
distribution of `(target identity, share)` edges. Shares are
fixed-point fractions, modelled as integer percent points out of 100
(the benchmarking harness builds them with `from_percent`). -/
structure Assignment where
  who : Nat
  distribution : List (Nat × Nat)
deriving DecidableEq, Repr

/-- One voter's row of a compact solution: the voter's snapshot index,
the `(target index, share)` edges for all but the last edge, and the
target index of the last edge, whose share is implied as `100% − sum of
the rest`. -/
structure CompactVoterRow where
  voter_index : Nat
  edges : List (Nat × Nat)
  last_target : Nat
deriving DecidableEq, Repr

/-- Index-based encoding of a set of assignments. -/
abbrev CompactSolution := List CompactVoterRow

/-- Errors of the compact codec. -/
inductive CodecError
  | UnknownVoter
  | UnknownTarget
  | TooManyEdges
  | IndexOutOfBounds
deriving DecidableEq, Repr

/-- The unit submitted by solvers: a compact solution, a solver-claimed
score, and the round it targets. -/
structure RawSolution where
  compact : CompactSolution
  score : ElectionScore
  round : Nat
deriving DecidableEq, Repr

/-- Provenance tag of a solution. -/
inductive ElectionCompute
  | OnChain
  | Signed
  | Unsigned
deriving DecidableEq, Repr

/-- The retained best solution of the round. -/
structure QueuedSolution where
  solution : RawSolution
  compute : ElectionCompute
deriving DecidableEq, Repr

/-! ## Snapshot accessors -/

/-- Lookup `voter_index(id)`: position of the voter with identity `id` in the
snapshot's voter sequence. -/
def RoundSnapshot.voter_index (snap : RoundSnapshot) (id : Nat) : Option Nat :=
  snap.voters.findIdx? (fun v => v.who = id)

/-- Lookup `target_index(id)`: position of target `id` in the snapshot's
target sequence (linear scan). -/
def RoundSnapshot.target_index (snap : RoundSnapshot) (id : Nat) : Option Nat :=
  snap.targets.findIdx? (fun t => t = id)

/-- Accessor `voter_at(i)`: identity of the voter at index `i`, if in bounds. -/
def RoundSnapshot.voter_at (snap : RoundSnapshot) (i : Nat) : Option Nat :=
  (snap.voters[i]?).map Voter.who

/-- Accessor `target_at(i)`: identity of the target at index `i`, if in bounds. -/
def RoundSnapshot.target_at (snap : RoundSnapshot) (i : Nat) : Option Nat :=
  snap.targets[i]?

/-- Accessor `stake_of(id)`: stake of the voter with identity `id`. -/
def RoundSnapshot.stake_of (snap : RoundSnapshot) (id : Nat) : Option Nat :=
  (snap.voters.find? (fun v => v.who = id)).map Voter.stake

/-! ## SolutionQueue -/

/-- Modelled from the spec: the queue-update step of
`SolutionQueue.accept` once the feasibility check has succeeded: if the
queue is empty, store the new solution unconditionally; otherwise
compare the new score to the stored score via `ScoringEngine.compare`
and replace only if the new score is strictly greater. -/
def SolutionQueue.acceptVerified
    (q : Option QueuedSolution) (s : QueuedSolution) : Option QueuedSolution :=
  match q with
  | none => some s
  | some cur =>
    if ScoringEngine.compare s.solution.score cur.solution.score = .gt
    then some s else some cur

/-! ## CompactSolutionCodec -/

/-- Modelled from the spec: replace each `(target identity, share)` edge
by `(target index, share)` using the snapshot's target index. Fails
(`none`) when a target identity is absent from the index. -/
def indexTargets (target_index : Nat → Option Nat) :
    List (Nat × Nat) → Option (List (Nat × Nat))
  | [] => some []
  | e :: rest =>
    match target_index e.1 with
    | none => none
    | some ti => (indexTargets target_index rest).map (fun tail => (ti, e.2) :: tail)

/-- Modelled from the spec: encode one assignment. Fails `UnknownVoter` /
`UnknownTarget` when an identity is absent from the snapshot's index and
`TooManyEdges` when the distribution exceeds the edge limit. The last
edge's share is dropped from the encoding, implied as the remainder to
100%. A voter with an empty distribution contributes no row (the
100%-sum invariant of the data model rules the case out). -/
def CompactSolutionCodec.encodeOne (limit : Nat)
    (voter_index target_index : Nat → Option Nat) (a : Assignment) :
    Except CodecError (Option CompactVoterRow) :=
  if limit < a.distribution.length then .error .TooManyEdges
  else
    match a.distribution.getLast? with
    | none => .ok none
    | some lastEdge =>
      match voter_index a.who with
      | none => .error .UnknownVoter
      | some vi =>
        match target_index lastEdge.1 with
        | none => .error .UnknownTarget
        | some lt =>
          match indexTargets target_index a.distribution.dropLast with
          | none => .error .UnknownTarget
          | some es => .ok (some ⟨vi, es, lt⟩)

/-- Modelled from the spec:
`encode(assignments, voter_index_fn, target_index_fn)`, the compact
encoding of a whole assignment set; the first failing row's error is
propagated. -/
def CompactSolutionCodec.encode (limit : Nat)
    (voter_index target_index : Nat → Option Nat) :
    List Assignment → Except CodecError CompactSolution
  | [] => .ok []
  | a :: rest =>
    match CompactSolutionCodec.encodeOne limit voter_index target_index a with
    | .error e => .error e
    | .ok none => CompactSolutionCodec.encode limit voter_index target_index rest
    | .ok (some row) =>
      match CompactSolutionCodec.encode limit voter_index target_index rest with
      | .error e => .error e
      | .ok tail => .ok (row :: tail)

/-- Modelled from the spec: resolve each `(target index, share)` edge
back to `(target identity, share)`; `none` when an index is out of
bounds. -/
def resolveTargets (target_at : Nat → Option Nat) :
    List (Nat × Nat) → Option (List (Nat × Nat))
  | [] => some []
  | e :: rest =>
    match target_at e.1 with
    | none => none
    | some t => (resolveTargets target_at rest).map (fun tail => (t, e.2) :: tail)

/-- Modelled from the spec: decode one compact row back into an
assignment; the implied last share is `100% − sum of the explicit
shares`; any out-of-bounds index fails with `IndexOutOfBounds`. -/
def CompactSolutionCodec.decodeOne (voter_at target_at : Nat → Option Nat)
    (row : CompactVoterRow) : Except CodecError Assignment :=
  match voter_at row.voter_index with
  | none => .error .IndexOutOfBounds
  | some w =>
    match resolveTargets target_at row.edges with
    | none => .error .IndexOutOfBounds
    | some dist =>
      match target_at row.last_target with
      | none => .error .IndexOutOfBounds
      | some lastT =>
        .ok ⟨w, dist ++ [(lastT, 100 - (row.edges.map Prod.snd).sum)]⟩

/-- Modelled from the spec: `decode(voter_at_fn, target_at_fn)`, the
inverse of `encode`; fails with `IndexOutOfBounds` if any index exceeds
the current snapshot's sizes. -/
def CompactSolutionCodec.decode (voter_at target_at : Nat → Option Nat) :
    CompactSolution → Except CodecError (List Assignment)
  | [] => .ok []
  | row :: rest =>
    match CompactSolutionCodec.decodeOne voter_at target_at row with
    | .error e => .error e
    | .ok a =>
      match CompactSolutionCodec.decode voter_at target_at rest with
      | .error e => .error e
      | .ok tail => .ok (a :: tail)

/-- Number of voter rows of a compact solution. -/
def CompactSolution.voter_count (c : CompactSolution) : Nat := c.length

/-- The unique target indices referenced by a compact solution. -/
def CompactSolution.unique_targets (c : CompactSolution) : List Nat :=
  (c.flatMap (fun row => row.edges.map Prod.fst ++ [row.last_target])).dedup

/-! ## Scoring and backing recomputation -/

/-- Modelled from the spec: `score(winners, backing)`:
`min_winner_backing` is the minimum backing among the winners,
`total_backing` their sum, and `sum_of_squared_backing` the sum of their
squares. -/
def ScoringEngine.score (winners : List Nat) (backing : Nat → Nat) : ElectionScore :=
  { min_winner_backing := ((winners.map backing).min?).getD 0
    total_backing := (winners.map backing).sum
    sum_of_squared_backing := (winners.map (fun w => backing w * backing w)).sum }

/-- Modelled from the spec: per-target backing recomputed from the
snapshot: for every `(voter, target, share)` edge of the decoded
assignments, add `stake_of(voter) * share` to that target's
accumulator. A share of `p` percent of stake `s` contributes
`s * p / 100` (fixed-point multiply). -/
def recomputedBacking (snap : RoundSnapshot) (assignments : List Assignment)
    (t : Nat) : Nat :=
  (assignments.map (fun a =>
    ((a.distribution.filter (fun e => e.1 = t)).map
      (fun e => ((snap.stake_of a.who).getD 0) * e.2 / 100)).sum)).sum

/-- The set (as a deduplicated list) of target identities referenced by
a decoded assignment set: the submitted winner set. -/
def uniqueTargets (assignments : List Assignment) : List Nat :=
  (assignments.flatMap (fun a => a.distribution.map Prod.fst)).dedup

/-- The distinct voter identities of a decoded assignment set. -/
def uniqueVoters (assignments : List Assignment) : List Nat :=
  (assignments.map Assignment.who).dedup

/-! ## Phase machine and persisted state -/

/-- The round phase: `Off | Signed(open_at) | Unsigned(ready, open_at)`. -/
inductive Phase
  | Off
  | Signed (open_at : Nat)
  | Unsigned (ready : Bool) (open_at : Nat)
deriving DecidableEq, Repr

/-- The persisted state surface: current phase, round counter, snapshot,
metadata, desired winner count and the queued best solution. -/
structure ElectionState where
  phase : Phase
  round : Nat
  snapshot : Option RoundSnapshot
  metadata : Option RoundSnapshotMetadata
  desired_targets : Option Nat
  queued : Option QueuedSolution
deriving DecidableEq, Repr

/-- Errors of the feasibility checker. -/
inductive FeasibilityError
  | SnapshotMissing
  | WrongRound
  | MalformedSolution (e : CodecError)
  | TooManyVoters
  | WrongWinnerCount
  | ScoreMismatch
deriving DecidableEq, Repr

/-- Modelled from the spec: `FeasibilityChecker.check(raw, compute)`:
1. `SnapshotMissing` if no snapshot (with its metadata and desired
   winner count) exists;
2. `WrongRound` if `raw.round` differs from the current round;
3. decode the compact solution against the live snapshot, propagating
   decode errors as `MalformedSolution`;
4. `TooManyVoters` if the distinct decoded voters exceed the metadata's
   voter count;
5. `WrongWinnerCount` unless the unique referenced targets number
   exactly `DesiredTargets`;
6./7. recompute the per-target backing and the score over it and the
   submitted winner set; `ScoreMismatch` if it differs from `raw.score`
   by exact equality;
8. return the recomputed, verified score.
The provenance tag is recorded only for bookkeeping. -/
def FeasibilityChecker.check (st : ElectionState) (raw : RawSolution)
    (_compute : ElectionCompute) : Except FeasibilityError ElectionScore :=
  match st.snapshot, st.metadata, st.desired_targets with
  | some snap, some meta, some desired =>
    if raw.round ≠ st.round then .error .WrongRound
    else
      match CompactSolutionCodec.decode snap.voter_at snap.target_at raw.compact with
      | .error e => .error (.MalformedSolution e)
      | .ok assignments =>
        if meta.voters_len < (uniqueVoters assignments).length then
          .error .TooManyVoters
        else if (uniqueTargets assignments).length ≠ desired then
          .error .WrongWinnerCount
        else if ScoringEngine.score (uniqueTargets assignments)
            (recomputedBacking snap assignments) ≠ raw.score then
          .error .ScoreMismatch
        else
          .ok (ScoringEngine.score (uniqueTargets assignments)
            (recomputedBacking snap assignments))
  | _, _, _ => .error .SnapshotMissing

/-- The caller-declared size witness of a submission. -/
structure SolutionSize where
  voters : Nat
  targets : Nat
deriving DecidableEq, Repr

/-- Errors of the submission entry point. -/
inductive SubmissionError
  | PhaseClosed
  | WitnessMismatch
  | Feasibility (e : FeasibilityError)
deriving DecidableEq, Repr

/-- Modelled from the spec: the witness pre-admission gate of the
submission entry point: the witness must equal the decoded solution's
actual voter/target counts exactly, or the submission is rejected with
`WitnessMismatch` before feasibility checking proceeds. The feasibility
checker is a parameter so that independence of the result from it
expresses that the checker is never consulted on a mismatch. -/
def submissionGate
    (checker : RawSolution → Except FeasibilityError ElectionScore)
    (raw : RawSolution) (witness : SolutionSize) :
    Except SubmissionError ElectionScore :=
  if raw.compact.voter_count = witness.voters ∧
     raw.compact.unique_targets.length = witness.targets then
    match checker raw with
    | .error e => .error (.Feasibility e)
    | .ok sc => .ok sc
  else .error .WitnessMismatch

/-- Modelled from the spec: `SolutionQueue.accept(raw, compute, checker)`:
runs the feasibility check; on failure returns the error and leaves the
state (in particular the queue) unchanged; on success stores the first
solution unconditionally or replaces the stored one only on a strictly
greater score. -/
def SolutionQueue.accept (st : ElectionState) (raw : RawSolution)
    (compute : ElectionCompute) : Except FeasibilityError Unit × ElectionState :=
  match FeasibilityChecker.check st raw compute with
  | .error e => (.error e, st)
  | .ok _ =>
    (.ok (), { st with queued := SolutionQueue.acceptVerified st.queued ⟨raw, compute⟩ })

/-- Modelled from the spec: which provenances a phase admits: `Signed`
submissions only during `Signed`, `Unsigned`/`OnChain` only during
`Unsigned`, nothing during `Off`. -/
def phaseAdmits (p : Phase) (compute : ElectionCompute) : Bool :=
  match p, compute with
  | .Signed _, .Signed => true
  | .Unsigned _ _, .Unsigned => true
  | .Unsigned _ _, .OnChain => true
  | _, _ => false

/-- Modelled from the spec: the full submission entry point: fails
`PhaseClosed` when the current phase does not admit the submission's
provenance, then applies the witness gate, then queue acceptance. A
failed submission never partially mutates state. -/
def ElectionState.submit (st : ElectionState) (raw : RawSolution)
    (witness : SolutionSize) (compute : ElectionCompute) :
    Except SubmissionError Unit × ElectionState :=
  if phaseAdmits st.phase compute = false then (.error .PhaseClosed, st)
  else if ¬(raw.compact.voter_count = witness.voters ∧
            raw.compact.unique_targets.length = witness.targets) then
    (.error .WitnessMismatch, st)
  else
    match SolutionQueue.accept st raw compute with
    | (.error e, st2) => (.error (.Feasibility e), st2)
    | (.ok _, st2) => (.ok (), st2)

/-- What the external data source supplies when a snapshot is built. -/
structure DataSourceOutput where
  voters : List Voter
  targets : List Nat
  desired_targets : Nat
deriving DecidableEq, Repr

/-- Modelled from the spec: the data source can serve the round iff it
supplies a non-empty voter and target set satisfying
`DesiredTargets ≤ target_count`. -/
def DataSourceOutput.viable (ds : DataSourceOutput) : Bool :=
  !ds.voters.isEmpty && !ds.targets.isEmpty &&
    decide (ds.desired_targets ≤ ds.targets.length)

/-- Modelled from the spec: `create_snapshot` builds and stores the
`RoundSnapshot`, its metadata and `DesiredTargets` from the data
source's output; fails (`none`) when the data is not viable. -/
def create_snapshot (st : ElectionState) (ds : DataSourceOutput) :
    Option ElectionState :=
  if ds.viable then
    some { st with
      snapshot := some ⟨ds.voters, ds.targets⟩,
      metadata := some ⟨ds.voters.length, ds.targets.length⟩,
      desired_targets := some ds.desired_targets }
  else none

/-- Modelled from the spec: the `Off → Signed` transition
(`on_initialize_open_signed`): builds the snapshot and enters
`Signed(now)`; falls back to `Off` idle, leaving the state unchanged,
when the data source cannot supply viable data. -/
def on_initialize_open_signed (st : ElectionState) (ds : DataSourceOutput)
    (now : Nat) : ElectionState :=
  match create_snapshot st ds with
  | some st2 => { st2 with phase := .Signed now }
  | none => st

/-! ## try-runtime CLI input parsers

Embedded from `utils/frame/try-runtime/cli/src/lib.rs`, `mod parse`.
Strings are modelled as lists of characters. -/

/-- Rust `str::starts_with(pat)`: does `s` begin with `pat`? -/
def strStartsWith : List Char → List Char → Bool
  | _, [] => true
  | [], _ :: _ => false
  | c :: cs, p :: ps => (c = p) && strStartsWith cs ps

/-- Rust `char::is_ascii_hexdigit`: `0-9`, `a-f` or `A-F`. -/
def isAsciiHexdigit (c : Char) : Bool :=
  (('0' ≤ c && c ≤ '9') || ('a' ≤ c && c ≤ 'f') || ('A' ≤ c && c ≤ 'F'))

/-- The first step of `parse::hash`: strip a leading `0x` if present
(`if block_number.starts_with("0x") { &block_number[2..] }`). -/
def stripHexTag (s : List Char) : List Char :=
  if strStartsWith s ['0', 'x'] then s.drop 2 else s

/-- Rust `Iterator::position(pred)`: index of the first element
satisfying the predicate. -/
def charPosition (p : Char → Bool) : List Char → Option Nat
  | [] => none
  | c :: cs => if p c then some 0 else (charPosition p cs).map (· + 1)

/-- Embedded from the source: `parse::hash(block_number)`: strip a
leading `0x`; if some remaining character is not an ASCII hex digit,
report it at position `2 + pos`; otherwise return the stripped
remainder. -/
def parse.hash (block_number : List Char) : Except String (List Char) :=
  let stripped := stripHexTag block_number
  match charPosition (fun c => !(isAsciiHexdigit c)) stripped with
  | some pos =>
    .error ("Expected block hash, found illegal hex character at position: "
      ++ toString (2 + pos))
  | none => .ok stripped

/-- The characters of `"ws://"`. -/
def wsTag : List Char := ['w', 's', ':', '/', '/']

/-- The characters of `"wss://"`. -/
def wssTag : List Char := ['w', 's', 's', ':', '/', '/']

/-- The fixed error message of `parse::url`. -/
def urlErrorMessage : String :=
  "not a valid WS(S) url: must start with \x27ws://\x27 or \x27wss://\x27"

/-- Embedded from the source: `parse::url(s)`: accept `s` unchanged iff
it starts with `ws://` or `wss://`; no other validation is performed. -/
def parse.url (s : List Char) : Except String (List Char) :=
  if strStartsWith s wsTag || strStartsWith s wssTag then .ok s
  else .error urlErrorMessage

/-! ## A concrete example round

The worked example of the spec: targets `{T1, T2, T3}` (identities
`1, 2, 3`), desired winner count 2, voters `V1` (identity `101`, stake
`100`, shares `T1: 60%, T2: 40%`) and `V2` (identity `102`, stake `50`,
share `T1: 100%`). -/

/-- The example snapshot. -/
def exampleSnapshot : RoundSnapshot :=
  ⟨[⟨101, 100, [1, 2]⟩, ⟨102, 50, [1]⟩], [1, 2, 3]⟩

/-- The example assignment set, in identity space. -/
def exampleAssignments : List Assignment :=
  [⟨101, [(1, 60), (2, 40)]⟩, ⟨102, [(1, 100)]⟩]

/-- The compact (index-space) form of the example assignment set. -/
def exampleCompact : CompactSolution :=
  [⟨0, [(0, 60)], 1⟩, ⟨1, [], 0⟩]

/-- The example persisted state with the snapshot in place, during the
unsigned phase of round 0. -/
def exampleState : ElectionState :=
  { phase := .Unsigned true 1
    round := 0
    snapshot := some exampleSnapshot
    metadata := some ⟨2, 3⟩
    desired_targets := some 2
    queued := none }

/-- The example raw solution, claiming the score
`(min = 40, total = 150, sumsq = 13700)`. -/
def exampleRaw : RawSolution :=
  ⟨exampleCompact, ⟨40, 150, 13700⟩, 0⟩

/-! ## Theorems -/

/-- Arithmetic characterization of `compare a b = .gt`. -/
lemma compare_gt_char (a b : ElectionScore) :
    ScoringEngine.compare a b = .gt ↔
      (b.min_winner_backing < a.min_winner_backing ∨
       (a.min_winner_backing = b.min_winner_backing ∧
        b.total_backing < a.total_backing) ∨
       (a.min_winner_backing = b.min_winner_backing ∧
        a.total_backing = b.total_backing ∧
        a.sum_of_squared_backing < b.sum_of_squared_backing)) := by
  unfold ScoringEngine.compare
  split_ifs <;> simp_all

/-- Arithmetic characterization of `compare a b = .eq`. -/
lemma compare_eq_char (a b : ElectionScore) :
    ScoringEngine.compare a b = .eq ↔
      (a.min_winner_backing = b.min_winner_backing ∧
       a.total_backing = b.total_backing ∧
       a.sum_of_squared_backing = b.sum_of_squared_backing) := by
  unfold ScoringEngine.compare
  split_ifs <;> simp_all

/-- Arithmetic characterization of `compare a b ≠ .gt`. -/
lemma compare_not_gt_char (a b : ElectionScore) :
    ScoringEngine.compare a b ≠ .gt ↔
      (a.min_winner_backing < b.min_winner_backing ∨
       (a.min_winner_backing = b.min_winner_backing ∧
        a.total_backing < b.total_backing) ∨
       (a.min_winner_backing = b.min_winner_backing ∧
        a.total_backing = b.total_backing ∧
        b.sum_of_squared_backing ≤ a.sum_of_squared_backing)) := by
  rw [Ne, compare_gt_char]
  omega

/-- Mixed transitivity: if `x` is at least as
good as `y` and `y` beats `z`, then `x` beats `z`. -/
lemma compare_gt_of_not_lt_of_gt {x y z : ElectionScore}
    (hxy : ScoringEngine.compare y x ≠ .gt)
    (hyz : ScoringEngine.compare y z = .gt) :
    ScoringEngine.compare x z = .gt := by
  rw [compare_not_gt_char] at hxy
  rw [compare_gt_char] at hyz ⊢
  omega

/-- C1: `ScoringEngine.compare` orders two `ElectionScore` triples by the
mixed-direction lexicographic rule: `a` is Greater than `b` iff
`a.min_winner_backing > b.min_winner_backing`, or those are equal and
`a.total_backing > b.total_backing`, or both are equal and
`a.sum_of_squared_backing < b.sum_of_squared_backing` (the third
component is minimized); the result is Equal iff all three components
are equal. -/
theorem C1_compare_mixed_lexicographic (a b : ElectionScore) :
    (ScoringEngine.compare a b = .gt ↔
      (a.min_winner_backing > b.min_winner_backing ∨
       (a.min_winner_backing = b.min_winner_backing ∧
        a.total_backing > b.total_backing) ∨
       (a.min_winner_backing = b.min_winner_backing ∧
        a.total_backing = b.total_backing ∧
        a.sum_of_squared_backing < b.sum_of_squared_backing))) ∧
    (ScoringEngine.compare a b = .eq ↔
      (a.min_winner_backing = b.min_winner_backing ∧
       a.total_backing = b.total_backing ∧
       a.sum_of_squared_backing = b.sum_of_squared_backing)) :=
  ⟨compare_gt_char a b, compare_eq_char a b⟩

/-- Strict transitivity of the Greater side of `compare`. -/
lemma compare_gt_trans {x y z : ElectionScore}
    (hxy : ScoringEngine.compare x y = .gt)
    (hyz : ScoringEngine.compare y z = .gt) :
    ScoringEngine.compare x z = .gt := by
  rw [compare_gt_char] at hxy hyz ⊢
  omega

/-- Once the stored solution strictly beats a score `B`, one more accepted
submission keeps that true. -/
lemma acceptVerified_beats (B : ElectionScore) (q : Option QueuedSolution)
    (x : QueuedSolution)
    (h : ∃ s, q = some s ∧ ScoringEngine.compare s.solution.score B = .gt) :
    ∃ s, SolutionQueue.acceptVerified q x = some s ∧
      ScoringEngine.compare s.solution.score B = .gt := by
  obtain ⟨s, hq, hs⟩ := h
  subst hq
  simp only [SolutionQueue.acceptVerified]
  split_ifs with hx
  · exact ⟨x, rfl, compare_gt_trans hx hs⟩
  · exact ⟨s, rfl, hs⟩

/-- Once the stored solution strictly beats `B`, any sequence of further
accepted submissions keeps that true. -/
lemma foldl_acceptVerified_beats (B : ElectionScore)
    (rest : List QueuedSolution) (q : Option QueuedSolution)
    (h : ∃ s, q = some s ∧ ScoringEngine.compare s.solution.score B = .gt) :
    ∃ s, rest.foldl SolutionQueue.acceptVerified q = some s ∧
      ScoringEngine.compare s.solution.score B = .gt := by
  induction rest generalizing q with
  | nil => simpa using h
  | cons x xs ih =>
    simpa using ih _ (acceptVerified_beats B q x h)

/-- C2: if `compare(A.score, B.score) = Greater`, then after `A` has been
accepted the queue never retains `B` through any sequence of later
accepted submissions; a first accepted solution is stored
unconditionally when the queue is empty, and an accepted solution
replaces the stored one only when its score is strictly greater. -/
theorem C2_queue_never_retains_worse (A B : QueuedSolution)
    (q0 : Option QueuedSolution) (rest : List QueuedSolution)
    (hAB : ScoringEngine.compare A.solution.score B.solution.score = .gt) :
    (∀ s, rest.foldl SolutionQueue.acceptVerified
        (SolutionQueue.acceptVerified q0 A) = some s → s ≠ B) ∧
    SolutionQueue.acceptVerified none A = some A ∧
    (∀ cur x, ScoringEngine.compare x.solution.score cur.solution.score ≠ .gt →
      SolutionQueue.acceptVerified (some cur) x = some cur) := by
  refine ⟨?_, rfl, ?_⟩
  · have hbase : ∃ s, SolutionQueue.acceptVerified q0 A = some s ∧
        ScoringEngine.compare s.solution.score B.solution.score = .gt := by
      match q0 with
      | none => exact ⟨A, rfl, hAB⟩
      | some cur =>
        simp only [SolutionQueue.acceptVerified]
        split_ifs with hx
        · exact ⟨A, rfl, hAB⟩
        · exact ⟨cur, rfl, compare_gt_of_not_lt_of_gt hx hAB⟩
    obtain ⟨s, hfold, hs⟩ :=
      foldl_acceptVerified_beats B.solution.score rest _ hbase
    intro t ht hEq
    rw [hfold] at ht
    cases ht
    subst hEq
    rw [compare_gt_char] at hs
    omega
  · intro cur x hx
    simp only [SolutionQueue.acceptVerified]
    split_ifs
    · exact absurd (by assumption) hx
    · rfl

/-- Witness for C2 at a concrete instance: `A` scores `(2,0,0)`, `B`
scores `(1,0,0)`, the queue starts empty and no further submission
follows. -/
theorem C2_queue_never_retains_worse_witness :
    (∀ s, ([] : List QueuedSolution).foldl SolutionQueue.acceptVerified
        (SolutionQueue.acceptVerified none
          ⟨⟨[], ⟨2, 0, 0⟩, 0⟩, .Unsigned⟩) = some s →
        s ≠ ⟨⟨[], ⟨1, 0, 0⟩, 0⟩, .Unsigned⟩) ∧
    SolutionQueue.acceptVerified none ⟨⟨[], ⟨2, 0, 0⟩, 0⟩, .Unsigned⟩ =
      some ⟨⟨[], ⟨2, 0, 0⟩, 0⟩, .Unsigned⟩ ∧
    (∀ cur x, ScoringEngine.compare x.solution.score cur.solution.score ≠ .gt →
      SolutionQueue.acceptVerified (some cur) x = some cur) :=
  C2_queue_never_retains_worse
    ⟨⟨[], ⟨2, 0, 0⟩, 0⟩, .Unsigned⟩ ⟨⟨[], ⟨1, 0, 0⟩, 0⟩, .Unsigned⟩
    none [] (by decide)

/-- C5: with the snapshot present, the round matching, the compact
solution decoding cleanly and the voter bound respected,
`FeasibilityChecker.check` fails with `WrongWinnerCount` iff the number
of unique targets referenced by the decoded solution differs from
`DesiredTargets`; when it equals `DesiredTargets` exactly, this step
passes (the check never returns `WrongWinnerCount`). -/
theorem C5_wrong_winner_count (st : ElectionState) (raw : RawSolution)
    (compute : ElectionCompute) (snap : RoundSnapshot)
    (meta : RoundSnapshotMetadata) (desired : Nat)
    (assignments : List Assignment)
    (hsnap : st.snapshot = some snap) (hmeta : st.metadata = some meta)
    (hdes : st.desired_targets = some desired)
    (hround : raw.round = st.round)
    (hdec : CompactSolutionCodec.decode snap.voter_at snap.target_at raw.compact
      = .ok assignments)
    (hvot : (uniqueVoters assignments).length ≤ meta.voters_len) :
    (FeasibilityChecker.check st raw compute = .error .WrongWinnerCount ↔
      (uniqueTargets assignments).length ≠ desired) ∧
    ((uniqueTargets assignments).length = desired →
      FeasibilityChecker.check st raw compute ≠ .error .WrongWinnerCount) := by
  have hv := Nat.not_lt.mpr hvot
  have key : FeasibilityChecker.check st raw compute = .error .WrongWinnerCount ↔
      (uniqueTargets assignments).length ≠ desired := by
    unfold FeasibilityChecker.check
    rw [hsnap, hmeta, hdes]
    simp only [hround, hdec]
    split_ifs with h1 h2 h3 <;> simp_all
  exact ⟨key, fun hl h => (key.mp h) hl⟩

/-- Witness for C5 at the worked example: the example solution
references exactly 2 unique targets with `DesiredTargets = 2`, so the
check does not return `WrongWinnerCount`. -/
theorem C5_wrong_winner_count_witness :
    FeasibilityChecker.check exampleState exampleRaw .Unsigned ≠
      .error .WrongWinnerCount :=
  (C5_wrong_winner_count exampleState exampleRaw .Unsigned exampleSnapshot
    ⟨2, 3⟩ 2 exampleAssignments rfl rfl rfl rfl (by decide) (by decide)).2
    (by decide)

/-- C3: under the same premises and with the winner count right,
`FeasibilityChecker.check` fails with `ScoreMismatch` iff the score
recomputed from the snapshot's backing differs from `raw.score` by
exact equality; when the claimed score equals the recomputed one, the
check passes and returns the verified score. On the worked example the
recomputed backing is `T1 = 110` and `T2 = 40`, and the recomputed
score is `(min = 40, total = 150, sumsq = 13700)`. -/
theorem C3_score_mismatch_exact (st : ElectionState) (raw : RawSolution)
    (compute : ElectionCompute) (snap : RoundSnapshot)
    (meta : RoundSnapshotMetadata) (desired : Nat)
    (assignments : List Assignment)
    (hsnap : st.snapshot = some snap) (hmeta : st.metadata = some meta)
    (hdes : st.desired_targets = some desired)
    (hround : raw.round = st.round)
    (hdec : CompactSolutionCodec.decode snap.voter_at snap.target_at raw.compact
      = .ok assignments)
    (hvot : (uniqueVoters assignments).length ≤ meta.voters_len)
    (hcount : (uniqueTargets assignments).length = desired) :
    (FeasibilityChecker.check st raw compute = .error .ScoreMismatch ↔
      ScoringEngine.score (uniqueTargets assignments)
        (recomputedBacking snap assignments) ≠ raw.score) ∧
    (ScoringEngine.score (uniqueTargets assignments)
        (recomputedBacking snap assignments) = raw.score →
      FeasibilityChecker.check st raw compute =
        .ok (ScoringEngine.score (uniqueTargets assignments)
          (recomputedBacking snap assignments))) ∧
    recomputedBacking exampleSnapshot exampleAssignments 1 = 110 ∧
    recomputedBacking exampleSnapshot exampleAssignments 2 = 40 ∧
    ScoringEngine.score (uniqueTargets exampleAssignments)
      (recomputedBacking exampleSnapshot exampleAssignments) =
      ⟨40, 150, 13700⟩ := by
  have hv := Nat.not_lt.mpr hvot
  refine ⟨?_, ?_, by decide, by decide, by decide⟩
  · unfold FeasibilityChecker.check
    rw [hsnap, hmeta, hdes]
    simp only [hround, hdec]
    split_ifs with h1 h2 h3 <;> simp_all
  · intro hSc
    unfold FeasibilityChecker.check
    rw [hsnap, hmeta, hdes]
    simp only [hround, hdec]
    split_ifs with h1 h2 h3 <;> simp_all

/-- Witness for C3 at the worked example: the example raw solution
claims exactly the recomputed score, so the check returns it
verified. -/
theorem C3_score_mismatch_exact_witness :
    FeasibilityChecker.check exampleState exampleRaw .Unsigned =
      .ok (ScoringEngine.score (uniqueTargets exampleAssignments)
        (recomputedBacking exampleSnapshot exampleAssignments)) :=
  (C3_score_mismatch_exact exampleState exampleRaw .Unsigned exampleSnapshot
    ⟨2, 3⟩ 2 exampleAssignments rfl rfl rfl rfl (by decide) (by decide)
    (by decide)).2.1 (by decide)

/-- C6: a submission whose witness declares counts different from the
decoded solution's actual voter/target counts is rejected with
`WitnessMismatch`, and the result does not depend on the feasibility
checker at all — the checker is never consulted. -/
theorem C6_witness_mismatch_rejected
    (checker1 checker2 : RawSolution → Except FeasibilityError ElectionScore)
    (raw : RawSolution) (size : SolutionSize)
    (h : ¬(raw.compact.voter_count = size.voters ∧
           raw.compact.unique_targets.length = size.targets)) :
    submissionGate checker1 raw size = .error .WitnessMismatch ∧
    submissionGate checker1 raw size = submissionGate checker2 raw size := by
  unfold submissionGate
  rw [if_neg h, if_neg h]
  exact ⟨rfl, rfl⟩

/-- Witness for C6: an empty compact solution (0 voter rows) submitted
with a witness declaring 1 voter is rejected with `WitnessMismatch`
under two checkers that would answer differently. -/
theorem C6_witness_mismatch_rejected_witness :
    submissionGate (fun _ => .error .ScoreMismatch) ⟨[], ⟨0, 0, 0⟩, 0⟩ ⟨1, 0⟩ =
      .error .WitnessMismatch ∧
    submissionGate (fun _ => .error .ScoreMismatch) ⟨[], ⟨0, 0, 0⟩, 0⟩ ⟨1, 0⟩ =
      submissionGate (fun _ => .ok ⟨0, 0, 0⟩) ⟨[], ⟨0, 0, 0⟩, 0⟩ ⟨1, 0⟩ :=
  C6_witness_mismatch_rejected (fun _ => .error .ScoreMismatch)
    (fun _ => .ok ⟨0, 0, 0⟩) ⟨[], ⟨0, 0, 0⟩, 0⟩ ⟨1, 0⟩ (by decide)

/-- C7: starting from phase `Off` with no snapshot stored, the
open-signed transition leaves the system with a snapshot present and
the phase `Signed`; when the data source cannot supply a non-empty
voter/target set with `DesiredTargets ≤ target_count`, the transition
fails and the system falls back to `Off` with no snapshot. -/
theorem C7_off_to_signed (st : ElectionState) (ds : DataSourceOutput)
    (now : Nat) (hoff : st.phase = .Off) (hsnap : st.snapshot = none) :
    (ds.viable = true →
      (on_initialize_open_signed st ds now).snapshot.isSome = true ∧
      (on_initialize_open_signed st ds now).phase = .Signed now) ∧
    (ds.viable = false →
      (on_initialize_open_signed st ds now).phase = .Off ∧
      (on_initialize_open_signed st ds now).snapshot = none) := by
  unfold on_initialize_open_signed create_snapshot
  constructor
  · intro hv
    simp [hv]
  · intro hv
    simp [hv, hoff, hsnap]

/-- Witness for C7: from the idle state, one viable data source output
(1 voter, 2 targets, 1 desired winner) opens the signed phase at step
12 with a snapshot in place. -/
theorem C7_off_to_signed_witness :
    (on_initialize_open_signed ⟨.Off, 0, none, none, none, none⟩
      ⟨[⟨1, 7, [5]⟩], [5, 6], 1⟩ 12).snapshot.isSome = true ∧
    (on_initialize_open_signed ⟨.Off, 0, none, none, none, none⟩
      ⟨[⟨1, 7, [5]⟩], [5, 6], 1⟩ 12).phase = .Signed 12 :=
  (C7_off_to_signed ⟨.Off, 0, none, none, none, none⟩
    ⟨[⟨1, 7, [5]⟩], [5, 6], 1⟩ 12 rfl rfl).1 (by decide)

/-- C8: a failing acceptance and any failed submission leave every
persisted slot — `Phase`, `Round`, `RoundSnapshot`, `Metadata`,
`DesiredTargets`, `QueuedSolution` — exactly as before the operation
(all-or-nothing contract). -/
theorem C8_failure_all_or_nothing (st : ElectionState) (raw : RawSolution)
    (size : SolutionSize) (compute : ElectionCompute) :
    (∀ e, (SolutionQueue.accept st raw compute).1 = .error e →
      (SolutionQueue.accept st raw compute).2 = st) ∧
    (∀ e, (st.submit raw size compute).1 = .error e →
      ((st.submit raw size compute).2.phase = st.phase ∧
       (st.submit raw size compute).2.round = st.round ∧
       (st.submit raw size compute).2.snapshot = st.snapshot ∧
       (st.submit raw size compute).2.metadata = st.metadata ∧
       (st.submit raw size compute).2.desired_targets = st.desired_targets ∧
       (st.submit raw size compute).2.queued = st.queued)) := by
  have hacc : ∀ e, (SolutionQueue.accept st raw compute).1 = .error e →
      (SolutionQueue.accept st raw compute).2 = st := by
    intro e he
    unfold SolutionQueue.accept at he ⊢
    cases h : FeasibilityChecker.check st raw compute <;> simp [h] at he ⊢
  have hsub : ∀ e, (st.submit raw size compute).1 = .error e →
      (st.submit raw size compute).2 = st := by
    intro e he
    unfold ElectionState.submit at he ⊢
    split_ifs at he ⊢
    · rfl
    · cases h : SolutionQueue.accept st raw compute with
      | mk r st2 =>
        cases r with
        | error e2 =>
          have ha : (SolutionQueue.accept st raw compute).1 = .error e2 := by
            rw [h]
          have hb := hacc e2 ha
          rw [h] at hb
          simp only [h]
          exact hb
        | ok u =>
          simp [h] at he
    · rfl
  refine ⟨hacc, fun e he => ?_⟩
  rw [hsub e he]
  exact ⟨rfl, rfl, rfl, rfl, rfl, rfl⟩

/-- Witness for C8: with no snapshot stored, acceptance fails with
`SnapshotMissing` and the state is returned untouched. -/
theorem C8_failure_all_or_nothing_witness :
    (SolutionQueue.accept ⟨.Off, 0, none, none, none, none⟩
      ⟨[], ⟨0, 0, 0⟩, 0⟩ .Unsigned).2 = ⟨.Off, 0, none, none, none, none⟩ :=
  (C8_failure_all_or_nothing ⟨.Off, 0, none, none, none, none⟩
    ⟨[], ⟨0, 0, 0⟩, 0⟩ ⟨0, 0⟩ .Unsigned).1 .SnapshotMissing (by decide)

/-- A successful `findIdx?` points at an element satisfying the
predicate. -/
lemma findIdx?_found {α : Type} (p : α → Bool) (l : List α) (i : Nat)
    (h : l.findIdx? p = some i) : ∃ x, l[i]? = some x ∧ p x = true := by
  rw [List.findIdx?_eq_some_iff_findIdx_eq] at h
  obtain ⟨hlt, hidx⟩ := h
  subst hidx
  exact ⟨l[l.findIdx p], List.getElem?_eq_getElem hlt, List.findIdx_getElem⟩

/-- The snapshot's `voter_at` inverts `voter_index`. -/
lemma voter_at_voter_index (snap : RoundSnapshot) (id vi : Nat)
    (h : snap.voter_index id = some vi) : snap.voter_at vi = some id := by
  obtain ⟨v, hv, hp⟩ := findIdx?_found _ _ _ h
  unfold RoundSnapshot.voter_at
  rw [hv]
  simp only [decide_eq_true_eq] at hp
  simp [hp]

/-- The snapshot's `target_at` inverts `target_index`. -/
lemma target_at_target_index (snap : RoundSnapshot) (id ti : Nat)
    (h : snap.target_index id = some ti) : snap.target_at ti = some id := by
  obtain ⟨t, ht, hp⟩ := findIdx?_found _ _ _ h
  unfold RoundSnapshot.target_at
  rw [ht]
  simp only [decide_eq_true_eq] at hp
  simp [hp]

/-- Indexing a distribution's targets against the snapshot succeeds when
every target is known, resolving back gives the original edges, and the
shares are preserved. -/
lemma resolve_index_targets (snap : RoundSnapshot) (l : List (Nat × Nat))
    (h : ∀ e ∈ l, (snap.target_index e.1).isSome = true) :
    ∃ l2, indexTargets snap.target_index l = some l2 ∧
      resolveTargets snap.target_at l2 = some l ∧
      l2.map Prod.snd = l.map Prod.snd := by
  induction l with
  | nil => exact ⟨[], rfl, rfl, rfl⟩
  | cons e rest ih =>
    obtain ⟨ti, hti⟩ := Option.isSome_iff_exists.mp (h e (by simp))
    obtain ⟨l2, h1, h2, h3⟩ := ih (fun x hx => h x (by simp [hx]))
    refine ⟨(ti, e.2) :: l2, ?_, ?_, ?_⟩
    · simp [indexTargets, hti, h1]
    · simp [resolveTargets, target_at_target_index snap e.1 ti hti, h2]
    · simp [h3]

/-- One assignment respecting the invariants encodes to a row that
decodes back to exactly the original assignment. -/
lemma encodeOne_decodeOne (limit : Nat) (snap : RoundSnapshot)
    (a : Assignment)
    (hlen : a.distribution.length ≤ limit)
    (hsum : (a.distribution.map Prod.snd).sum = 100)
    (hv : (snap.voter_index a.who).isSome = true)
    (ht : ∀ e ∈ a.distribution, (snap.target_index e.1).isSome = true) :
    ∃ row,
      CompactSolutionCodec.encodeOne limit snap.voter_index snap.target_index a
        = .ok (some row) ∧
      CompactSolutionCodec.decodeOne snap.voter_at snap.target_at row
        = .ok a := by
  have hne : a.distribution ≠ [] := by
    intro h0
    rw [h0] at hsum
    simp at hsum
  have hlast : a.distribution.getLast? = some (a.distribution.getLast hne) :=
    List.getLast?_eq_getLast _ hne
  have hsplit : a.distribution.dropLast ++ [a.distribution.getLast hne]
      = a.distribution := List.dropLast_append_getLast hne
  obtain ⟨vi, hvi⟩ := Option.isSome_iff_exists.mp hv
  obtain ⟨lt, hlt⟩ := Option.isSome_iff_exists.mp
    (ht (a.distribution.getLast hne) (List.getLast_mem hne))
  obtain ⟨es, h1, h2, h3⟩ := resolve_index_targets snap a.distribution.dropLast
    (fun e he => ht e (List.dropLast_subset _ he))
  have hsum2 : ((a.distribution.dropLast.map Prod.snd).sum
      + (a.distribution.getLast hne).2) = 100 := by
    conv at hsum => rw [← hsplit]
    simpa using hsum
  have hshare : 100 - (es.map Prod.snd).sum = (a.distribution.getLast hne).2 := by
    rw [h3]
    omega
  refine ⟨⟨vi, es, lt⟩, ?_, ?_⟩
  · unfold CompactSolutionCodec.encodeOne
    rw [if_neg (by omega)]
    simp only [hlast, hvi, hlt, h1]
  · unfold CompactSolutionCodec.decodeOne
    simp only [voter_at_voter_index snap a.who vi hvi, h2,
      target_at_target_index snap (a.distribution.getLast hne).1 lt hlt, hshare]
    rw [show ((a.distribution.getLast hne).1, (a.distribution.getLast hne).2)
      = a.distribution.getLast hne from rfl, hsplit]

/-- C4: for every assignment set in which each voter's distribution has
at most `EdgeLimit` edges, shares sum to 100%, and all identities are
known to the snapshot's index functions, encoding against the
snapshot's index functions succeeds and decoding against the matching
inverse functions returns exactly the original assignment set. -/
theorem C4_codec_round_trip (limit : Nat) (snap : RoundSnapshot)
    (assignments : List Assignment)
    (h : ∀ a ∈ assignments,
      a.distribution.length ≤ limit ∧
      (a.distribution.map Prod.snd).sum = 100 ∧
      (snap.voter_index a.who).isSome = true ∧
      ∀ e ∈ a.distribution, (snap.target_index e.1).isSome = true) :
    ∃ c,
      CompactSolutionCodec.encode limit snap.voter_index snap.target_index
        assignments = .ok c ∧
      CompactSolutionCodec.decode snap.voter_at snap.target_at c
        = .ok assignments := by
  induction assignments with
  | nil => exact ⟨[], rfl, rfl⟩
  | cons a rest ih =>
    obtain ⟨h1, h2, h3, h4⟩ := h a (by simp)
    obtain ⟨row, hE, hD⟩ := encodeOne_decodeOne limit snap a h1 h2 h3 h4
    obtain ⟨c, hEc, hDc⟩ := ih (fun x hx => h x (by simp [hx]))
    refine ⟨row :: c, ?_, ?_⟩
    · simp [CompactSolutionCodec.encode, hE, hEc]
    · simp [CompactSolutionCodec.decode, hD, hDc]

/-- Witness for C4 at the worked example: the two example assignments
(edge limit 2) encode and decode back to themselves. -/
theorem C4_codec_round_trip_witness :
    ∃ c,
      CompactSolutionCodec.encode 2 exampleSnapshot.voter_index
        exampleSnapshot.target_index exampleAssignments = .ok c ∧
      CompactSolutionCodec.decode exampleSnapshot.voter_at
        exampleSnapshot.target_at c = .ok exampleAssignments :=
  C4_codec_round_trip 2 exampleSnapshot exampleAssignments (by decide)

/-- No position is found iff no element satisfies the predicate. -/
lemma charPosition_eq_none_iff (p : Char → Bool) (l : List Char) :
    charPosition p l = none ↔ ∀ c ∈ l, p c = false := by
  induction l with
  | nil => simp [charPosition]
  | cons c cs ih =>
    by_cases hc : p c <;> simp [charPosition, hc, ih]

/-- A found position points at a satisfying element. -/
lemma charPosition_some_mem (p : Char → Bool) (l : List Char) (pos : Nat)
    (h : charPosition p l = some pos) : ∃ c ∈ l, p c = true := by
  induction l generalizing pos with
  | nil => simp [charPosition] at h
  | cons x xs ih =>
    by_cases hx : p x
    · exact ⟨x, by simp, hx⟩
    · have hrec : charPosition p (x :: xs) = (charPosition p xs).map (· + 1) := by
        simp [charPosition, hx]
      rw [hrec, Option.map_eq_some'] at h
      obtain ⟨n, hn, _⟩ := h
      obtain ⟨c, hc, hpc⟩ := ih n hn
      exact ⟨c, by simp [hc], hpc⟩

/-- The position found is the first index whose element satisfies the
predicate. -/
lemma charPosition_eq_some (p : Char → Bool) (l : List Char) (pos : Nat)
    (c : Char) (hc : l[pos]? = some c) (hp : p c = true)
    (hbefore : ∀ d ∈ l.take pos, p d = false) :
    charPosition p l = some pos := by
  induction l generalizing pos with
  | nil => simp at hc
  | cons x xs ih =>
    cases pos with
    | zero =>
      simp only [List.getElem?_cons_zero, Option.some.injEq] at hc
      subst hc
      simp [charPosition, hp]
    | succ n =>
      have hx : p x = false := hbefore x (by simp)
      have hb : ∀ d ∈ xs.take n, p d = false := fun d hd => hbefore d (by simp [hd])
      have hc2 : xs[n]? = some c := by simpa using hc
      simp [charPosition, hx, ih n hc2 hb]

/-- Matching a two-character head means the list literally starts with
those two characters. -/
lemma strStartsWith_two {c1 c2 : Char} {s : List Char}
    (h : strStartsWith s [c1, c2] = true) : ∃ rest, s = c1 :: c2 :: rest := by
  match s with
  | [] => simp [strStartsWith] at h
  | [x] => simp [strStartsWith] at h
  | x :: y :: r =>
    simp only [strStartsWith, Bool.and_eq_true, decide_eq_true_eq] at h
    exact ⟨r, by simp [h.1, h.2.1]⟩

/-- C9: `parse::hash` first strips a leading `0x` if present, then
returns `Ok` of the remaining string iff every remaining character is
an ASCII hexadecimal digit (the empty remainder included); otherwise it
returns an error reporting the illegal character at position `2 + pos`,
where `pos` is the 0-based index of the first non-hex character of the
stripped string — the `+2` offset applies whether or not the input had
the `0x` head. -/
theorem C9_parse_hash_spec (s : List Char) :
    (∀ rest, s = '0' :: 'x' :: rest → stripHexTag s = rest) ∧
    ((¬ ∃ rest, s = '0' :: 'x' :: rest) → stripHexTag s = s) ∧
    (parse.hash s = .ok (stripHexTag s) ↔
      ∀ c ∈ stripHexTag s, isAsciiHexdigit c = true) ∧
    (∀ pos c, (stripHexTag s)[pos]? = some c → isAsciiHexdigit c = false →
      (∀ d ∈ (stripHexTag s).take pos, isAsciiHexdigit d = true) →
      parse.hash s = .error
        ("Expected block hash, found illegal hex character at position: "
          ++ toString (2 + pos))) := by
  refine ⟨?_, ?_, ?_, ?_⟩
  · intro rest hrest
    subst hrest
    simp [stripHexTag, strStartsWith]
  · intro h
    unfold stripHexTag
    rw [if_neg]
    intro hs
    exact h (strStartsWith_two hs)
  · unfold parse.hash
    cases h : charPosition (fun c => !(isAsciiHexdigit c)) (stripHexTag s) with
    | none =>
      have h2 := (charPosition_eq_none_iff _ _).mp h
      simp only [h]
      exact iff_of_true (by simp) (fun c hc => by simpa using h2 c hc)
    | some pos =>
      simp only [h]
      apply iff_of_false (by simp)
      intro hall
      obtain ⟨c, hc, hpc⟩ := charPosition_some_mem _ _ _ h
      rw [hall c hc] at hpc
      simp at hpc
  · intro pos c hc hp hbefore
    have hfound := charPosition_eq_some (fun c => !(isAsciiHexdigit c))
      (stripHexTag s) pos c hc (by simp [hp])
      (fun d hd => by simp [hbefore d hd])
    unfold parse.hash
    simp only [hfound]

/-- Witness for C9: the input `0xz` strips to `z`, whose first character
is not a hex digit, and the error reports position `2 + 0 = 2`. -/
theorem C9_parse_hash_spec_witness :
    parse.hash ['0', 'x', 'z'] = .error
      ("Expected block hash, found illegal hex character at position: "
        ++ toString (2 + 0)) :=
  (C9_parse_hash_spec ['0', 'x', 'z']).2.2.2 0 'z' (by decide) (by decide)
    (by decide)

/-- C10: `parse::url` returns `Ok(s)` unchanged iff `s` starts with
`ws://` or `wss://`, and returns an error with the fixed message
otherwise; no other validation is performed. -/
theorem C10_parse_url_spec (s : List Char) :
    (parse.url s = .ok s ↔
      (strStartsWith s wsTag = true ∨ strStartsWith s wssTag = true)) ∧
    ((strStartsWith s wsTag = false ∧ strStartsWith s wssTag = false) →
      parse.url s = .error urlErrorMessage) := by
  constructor
  · unfold parse.url
    split_ifs with h
    · simp only [Bool.or_eq_true] at h
      exact iff_of_true rfl h
    · simp only [Bool.or_eq_true] at h
      exact iff_of_false (by simp) h
  · intro h
    have hb : (strStartsWith s wsTag || strStartsWith s wssTag) = false := by
      simp [h.1, h.2]
    simp [parse.url, hb]

/-- Witness for C10: the single-character input `h` has neither scheme
head and is rejected with the fixed message. -/
theorem C10_parse_url_spec_witness :
    parse.url ['h'] = .error urlErrorMessage :=
  (C10_parse_url_spec ['h']).2 (by decide)
